import Mathlib

/-
Verification of the MedicalAssistant client core.

Shallow embedding of the two source files:
  * client/src/hooks/useSpeechRecognition.ts  (speech-capture engine)
  * client/src/hooks/useChatbot.tsx           (intent routing, model fallback,
                                               service-data synthesis)

JavaScript strings are modelled as Lean `String`; the handful of JS string
operations the source uses (`toLowerCase`, `includes`, `split`, `trim`,
`join`, `replace(/\s+/g, '+')`, `encodeURIComponent`) are defined below on
`List Char`, matching JS semantics on the ASCII inputs the program deals
with (JS `toLowerCase`/`\s` are Unicode-aware; the model covers the ASCII
letter range and ASCII whitespace, which is what every keyword, trigger
phrase and stop word in the source consists of).
-/

/-! ## JS string primitives -/

/-- ASCII whitespace, the characters matched by the `\s` class that occur in
ASCII text (space, tab, LF, CR, VT, FF). -/
def isWsChar (c : Char) : Bool :=
  c == ' ' || c == '\t' || c == '\n' || c == '\r' || c == '\x0b' || c == '\x0c'

/-- ASCII uppercase letter test ('A'..'Z', code points 65..90). -/
def isUpperChar (c : Char) : Bool :=
  decide (65 ≤ c.toNat ∧ c.toNat ≤ 90)

/-- One character of JS `String.prototype.toLowerCase` (ASCII range). -/
def jsToLowerChar (c : Char) : Char :=
  if 65 ≤ c.toNat ∧ c.toNat ≤ 90 then Char.ofNat (c.toNat + 32) else c

/-- JS `s.toLowerCase()` (ASCII range). -/
def toLowerCase (s : String) : String :=
  String.mk (s.toList.map jsToLowerChar)

/-- Boolean list-prefix test (building block for JS `includes`/`split`). -/
def listIsPrefixOf : List Char → List Char → Bool
  | [], _ => true
  | _ :: _, [] => false
  | a :: as, b :: bs => a == b && listIsPrefixOf as bs

/-- Containment test `containsSub pat l`: `pat` occurs as a contiguous run inside `l`. -/
def containsSub (pat : List Char) : List Char → Bool
  | [] => pat.isEmpty
  | c :: rest => listIsPrefixOf pat (c :: rest) || containsSub pat rest

/-- JS `s.includes(pat)`. -/
def includes (s pat : String) : Bool :=
  containsSub pat.toList s.toList

/-- Worker for JS `s.split(sep)` with a non-empty string separator: scan left
to right, cutting at each non-overlapping occurrence of `sep`.  `skip`
counts separator characters still to be consumed after a match. -/
def splitOnCore (sep : List Char) : List Char → Nat → List Char →
    List (List Char)
  | [], _, acc => [acc.reverse]
  | _ :: rest, skip + 1, acc => splitOnCore sep rest skip acc
  | c :: rest, 0, acc =>
    if listIsPrefixOf sep (c :: rest) then
      acc.reverse :: splitOnCore sep rest (sep.length - 1) []
    else
      splitOnCore sep rest 0 (c :: acc)

/-- JS `s.split(sep)` for a non-empty string separator, on char lists. -/
def splitOnL (sep l : List Char) : List (List Char) :=
  splitOnCore sep l 0 []

/-- JS `s.split(sep)` for a non-empty string separator. -/
def splitOnStr (sep s : String) : List String :=
  (splitOnL sep.toList s.toList).map String.mk

/-- Worker for JS `s.split(/\s+/)`: cut at each maximal whitespace run
(leading whitespace yields an initial empty piece, as in JS).  `inWs`
records that the previous character was whitespace, so a run makes only
one cut. -/
def splitWsCore : List Char → List Char → Bool → List (List Char)
  | [], acc, _ => [acc.reverse]
  | c :: rest, acc, inWs =>
    if isWsChar c then
      if inWs then splitWsCore rest acc true
      else acc.reverse :: splitWsCore rest [] true
    else splitWsCore rest (c :: acc) false

/-- JS `s.split(/\s+/)` on a character list. -/
def splitWsL (l : List Char) : List (List Char) :=
  splitWsCore l [] false

/-- JS `s.trim()` on a character list (ASCII whitespace). -/
def trimL (l : List Char) : List Char :=
  ((l.dropWhile isWsChar).reverse.dropWhile isWsChar).reverse

/-- JS `arr.join(" ")` on character-list tokens. -/
def joinSpaceL : List (List Char) → List Char
  | [] => []
  | [t] => t
  | t :: ts => t ++ ' ' :: joinSpaceL ts

/-- One uppercase hex digit (JS `encodeURIComponent` uses uppercase). -/
def hexUpper (n : Nat) : Char :=
  if n < 10 then Char.ofNat (48 + n) else Char.ofNat (55 + n)

/-- Characters `encodeURIComponent` leaves unescaped. -/
def isUnreservedURI (c : Char) : Bool :=
  c.isAlphanum || c == '-' || c == '_' || c == '.' || c == '!' || c == '~' ||
    c == '*' || c == Char.ofNat 39 || c == '(' || c == ')'

/-- UTF-8 bytes of one character. -/
def charUtf8Bytes (c : Char) : List Nat :=
  (String.singleton c).toUTF8.toList.map UInt8.toNat

/-- JS `encodeURIComponent`. -/
def encodeURIComponent (s : String) : String :=
  String.mk <| s.toList.foldr
    (fun c acc =>
      if isUnreservedURI c then c :: acc
      else (charUtf8Bytes c).foldr
        (fun b acc2 => '%' :: hexUpper (b / 16) :: hexUpper (b % 16) :: acc2)
        acc)
    []

/-- Worker for JS `s.replace(/\s+/g, '+')`: each maximal whitespace run
becomes one `+`; `inWs` records that the previous character was
whitespace. -/
def replaceWsCore : List Char → Bool → List Char
  | [], _ => []
  | c :: rest, inWs =>
    if isWsChar c then
      if inWs then replaceWsCore rest true
      else '+' :: replaceWsCore rest true
    else c :: replaceWsCore rest false

/-- JS `s.replace(/\s+/g, '+')`. -/
def plusJoined (s : String) : String :=
  String.mk (replaceWsCore s.toList false)

/-! ## Speech-capture engine (useSpeechRecognition.ts)

The hook's observable state is the React state triple
`(transcript, isListening, error)` plus the platform recognizer: whether it
is currently started and which `onend` handler is installed.  The `onend`
slot matters because `startListening` first installs a plain handler
(`() => setIsListening(false)`) and then, inside the `try` block, overrides
it with the keep-alive closure; that closure captures the value the
`isListening` state had when `startListening` ran (React state reads inside
a callback see the render-time value, not later updates), so the handler is
modelled as carrying that captured boolean. -/

/-- One platform recognition result; `transcript` is the best alternative
`result[0].transcript`, the only field the handler reads. -/
structure SpeechResult where
  isFinal : Bool
  transcript : String
deriving DecidableEq, Repr

/-- A platform `result` event: `resultIndex` and the full result list. -/
structure SpeechEvent where
  resultIndex : Nat
  results : List SpeechResult
deriving DecidableEq, Repr

/-- The `onresult` handler (useSpeechRecognition.ts lines 129-139): walk the
results from `resultIndex`, concatenating the best alternative of each
`isFinal` result into `currentTranscript`, then append
`" " ++ currentTranscript` to the stored transcript. -/
def handleResult (t : String) (e : SpeechEvent) : String :=
  let currentTranscript :=
    (e.results.drop e.resultIndex).foldl
      (fun acc r => if r.isFinal then acc ++ r.transcript else acc) ""
  t ++ " " ++ currentTranscript

/-- Deliver a sequence of `result` events to the transcript accumulator. -/
def processEvents (t : String) (evs : List SpeechEvent) : String :=
  evs.foldl handleResult t

/-- Concatenation of a list of strings, no separator. -/
def concatStrs : List String → String
  | [] => ""
  | s :: rest => s ++ concatStrs rest

/-- The final-alternatives text a single event contributes (no separator
between two final results of the same event). -/
def eventFinalsText (e : SpeechEvent) : String :=
  concatStrs (((e.results.drop e.resultIndex).filter
    (fun r => r.isFinal)).map (fun r => r.transcript))

/-- Closed form of the accumulator following the amended claim: one space
per event — final or not — then that event's final text.  (Characterisation
of `processEvents`, proved below.) -/
def transcriptSpecAmended (t : String) (evs : List SpeechEvent) : String :=
  t ++ concatStrs (evs.map (fun e => " " ++ eventFinalsText e))

/-- Which handler sits in the recognizer's `onend` slot. -/
inductive OnEndHandler where
  /-- nothing assigned yet -/
  | unset
  /-- the plain handler `() => setIsListening(false)` (lines 141-143) -/
  | plain
  /-- the keep-alive override (lines 193-199); `captured` is the value of
  `isListening` the closure captured when `startListening` ran -/
  | keepAlive (captured : Bool)
deriving DecidableEq, Repr

/-- Observable engine state (React state + recognizer handler/run state).
A recognizer instance is assumed to exist (the `useEffect` created it;
when it is `null` both `startListening` and `stopListening` return at once,
touching nothing). -/
structure EngineState where
  isListening : Bool
  transcript : String
  error : Option String
  started : Bool
  onend : OnEndHandler
  restartAttempts : Nat
deriving DecidableEq, Repr

/-- The state after mounting: nothing recorded, recognizer idle. -/
def initEngineState : EngineState :=
  { isListening := false, transcript := "", error := none,
    started := false, onend := OnEndHandler.unset, restartAttempts := 0 }

/-- Operation `startListening` (lines 125-203).  Handlers are assigned first (the
`onend` slot gets the plain handler); then, inside `try`,
`recognition.start()` runs — if the recognizer is already started this
throws and the `catch` only logs, leaving the plain handler in place.
Otherwise `setIsListening(true)`, `setError(null)` run and `onend` is
overridden with the keep-alive closure, which captures the render-time
value of `isListening`, i.e. the committed state when the call began. -/
def startListening (s : EngineState) : EngineState :=
  let s1 := { s with onend := OnEndHandler.plain }
  if s1.started then s1
  else
    { s1 with started := true, isListening := true, error := none,
              onend := OnEndHandler.keepAlive s.isListening }

/-- Operation `stopListening` (lines 206-211): `recognition.stop()` then
`setIsListening(false)`. -/
def stopListening (s : EngineState) : EngineState :=
  { s with started := false, isListening := false }

/-- Operation `resetTranscript` (lines 214-216). -/
def resetTranscript (s : EngineState) : EngineState :=
  { s with transcript := "" }

/-- A `result` event updates the stored transcript via `handleResult`. -/
def onResultEvent (s : EngineState) (e : SpeechEvent) : EngineState :=
  { s with transcript := handleResult s.transcript e }

/-- A platform `end` event: the recognizer has stopped; then the installed
`onend` handler runs.  The keep-alive override tests its captured
`isListening`: if true it calls `keepAliveHandler`, which re-tests the same
captured value and calls `recognition.start()` (one restart attempt);
otherwise it falls through to the original plain handler, which merely does
`setIsListening(false)`. -/
def onEndEvent (s : EngineState) : EngineState :=
  match s.onend with
  | OnEndHandler.unset => { s with started := false }
  | OnEndHandler.plain => { s with started := false, isListening := false }
  | OnEndHandler.keepAlive captured =>
    if captured then
      { s with started := true, restartAttempts := s.restartAttempts + 1 }
    else
      { s with started := false, isListening := false }

/-! ## Chat response generation (useChatbot.tsx) -/

/-- A chat message `{role, content}` as sent to the completion API. -/
structure ChatMsg where
  role : String
  content : String
deriving DecidableEq, Repr

/-- The trigger-phrase list of `extractSearchQuery` (lines 271-280). -/
def commonPhrases : List String :=
  ["search for", "find information about", "look up", "tell me about",
   "information on", "video about", "play a video on", "show me"]

/-- The stop-word list of the fallback extraction (line 297). -/
def wordsToRemove : List String :=
  ["what", "where", "when", "how", "why", "can", "could", "would", "should",
   "is", "are", "was", "were", "you", "i", "me", "my", "mine", "help"]

/-- The `for`-loop of `extractSearchQuery` (lines 284-292): for the first
phrase contained in the lowercased message whose split yields more than one
part, return `parts[1].trim()`; `none` when no phrase causes a `break`. -/
def findPhraseQuery (lowerMsg : List Char) : List String → Option (List Char)
  | [] => none
  | p :: rest =>
    if containsSub p.toList lowerMsg then
      let parts := splitOnL p.toList lowerMsg
      if 1 < parts.length then some (trimL (parts.getD 1 []))
      else findPhraseQuery lowerMsg rest
    else findPhraseQuery lowerMsg rest

/-- Function `extractSearchQuery` (lines 269-303) on a character list.  `query`
starts as the full message; the phrase loop may overwrite it with
`parts[1].trim()` of the lowercased message; afterwards, if `query` still
equals the message, the stop-word fallback runs: lowercase, split on
whitespace runs, drop stop words, rejoin with single spaces, trim. -/
def extractQueryL (msg : List Char) : List Char :=
  let lower := msg.map jsToLowerChar
  let query := (findPhraseQuery lower commonPhrases).getD msg
  if query = msg then
    trimL (joinSpaceL ((splitWsL lower).filter
      (fun w => !((wordsToRemove.map String.toList).contains w))))
  else query

/-- Function `extractSearchQuery` (lines 269-303). -/
def extractSearchQuery (message : String) : String :=
  String.mk (extractQueryL message.toList)

/-- Intent detection (useChatbot.tsx lines 139-159): keyword containment on
the lowercased message, appointment keywords first, then search, then
video; returns `(serviceType, query)` with `serviceType` one of the
strings `"appointment" | "search" | "video" | "none"`. -/
def classifyIntent (message : String) : String × String :=
  let lowerMessage := toLowerCase message
  if includes lowerMessage "appointment" || includes lowerMessage "schedule" ||
      includes lowerMessage "book" then
    ("appointment", "")
  else if includes lowerMessage "search" ||
      includes lowerMessage "find information" ||
      includes lowerMessage "look up" then
    ("search", extractSearchQuery message)
  else if includes lowerMessage "video" || includes lowerMessage "youtube" ||
      includes lowerMessage "watch" then
    ("video", extractSearchQuery message)
  else
    ("none", "")

/-- Payload shape of `prepareAppointmentData` (lines 306-312): a static catalog. -/
structure AppointmentData where
  appointmentTypes : List String
  doctors : List String
deriving DecidableEq, Repr

/-- One search result entry. -/
structure SearchResult where
  title : String
  url : String
  displayUrl : String
  snippet : String
deriving DecidableEq, Repr

/-- The curated payload's featured-info block. -/
structure FeaturedInfo where
  title : String
  content : List String
  source : String
deriving DecidableEq, Repr

/-- A search payload; the generic branch has no `featuredInfo`. -/
structure SearchData where
  title : String
  summary : String
  featuredInfo : Option FeaturedInfo
  results : List SearchResult
deriving DecidableEq, Repr

/-- Payload shape of `prepareVideoData`. -/
structure VideoData where
  title : String
  videoId : String
  thumbnail : String
  duration : String
  channel : String
  views : String
  likes : String
  description : String
deriving DecidableEq, Repr

/-- Function `prepareAppointmentData` (lines 306-312). -/
def prepareAppointmentData : AppointmentData :=
  { appointmentTypes :=
      ["General Check-up", "Specialist Consultation", "Follow-up",
       "Vaccination"],
    doctors := ["Dr. Smith", "Dr. Johnson", "Dr. Williams", "Dr. Brown"] }

/-- The curated diabetes payload (lines 317-353). -/
def diabetesSearchData : SearchData :=
  { title := "Diabetes Information",
    summary := "Information about diabetes symptoms and management",
    featuredInfo := some
      { title := "Common symptoms of diabetes include:",
        content :=
          ["Increased thirst and urination",
           "Extreme fatigue",
           "Blurry vision",
           "Cuts/bruises that are slow to heal",
           "Weight loss, even though you are eating more (type 1)",
           "Tingling, pain, or numbness in the hands/feet (type 2)"],
        source := "American Diabetes Association" },
    results :=
      [{ title := "Diabetes Symptoms: When to see a doctor | Mayo Clinic",
         url := "https://www.mayoclinic.org/diseases-conditions/diabetes/symptoms-causes/syc-20371444",
         displayUrl := "www.mayoclinic.org › diseases-conditions › diabetes › symptoms-causes",
         snippet := "Diabetes symptoms vary depending on how much your blood sugar is elevated. Some people, especially those with prediabetes or type 2 diabetes, may not ..." },
       { title := "Symptoms & Causes of Diabetes | NIDDK",
         url := "https://www.niddk.nih.gov/health-information/diabetes/overview/symptoms-causes",
         displayUrl := "www.niddk.nih.gov › health-information › diabetes",
         snippet := "What are the symptoms of diabetes? Symptoms of diabetes include increased thirst and urination, fatigue, and blurred vision. Some people with ..." },
       { title := "Diabetes Symptoms | CDC",
         url := "https://www.cdc.gov/diabetes/basics/symptoms.html",
         displayUrl := "www.cdc.gov › diabetes › basics › symptoms",
         snippet := "Learn about diabetes symptoms such as frequent urination, increased thirst, and unexplained weight loss. Early detection and treatment can prevent ..." }] }

/-- Function `prepareSearchData` (lines 315-374): the curated diabetes payload when
the query contains "diabetes", otherwise a generic payload templated from
the query (two results). -/
def prepareSearchData (query : String) : SearchData :=
  if includes query "diabetes" then diabetesSearchData
  else
    { title := query,
      summary := "Information about " ++ query,
      featuredInfo := none,
      results :=
        [{ title := "Medical Information about " ++ query ++ " | MedlinePlus",
           url := "https://medlineplus.gov/search?query=" ++
             encodeURIComponent query,
           displayUrl := "medlineplus.gov › search › " ++ plusJoined query,
           snippet := "Comprehensive medical information about " ++ query ++
             " including symptoms, treatments, and prevention measures." },
         { title := query ++ " - Health Information | Mayo Clinic",
           url := "https://www.mayoclinic.org/search/search-results?q=" ++
             encodeURIComponent query,
           displayUrl := "www.mayoclinic.org › search › " ++ plusJoined query,
           snippet := "Learn about the causes, symptoms, diagnosis & treatment of " ++
             query ++ " from the Mayo Clinic." }] }

/-- Function `prepareVideoData` (lines 377-389). -/
def prepareVideoData (query : String) : VideoData :=
  { title := "Managing " ++ query ++ ": Healthy Living Tips",
    videoId := "dQw4w9WgXcQ",
    thumbnail := "https://i.ytimg.com/vi/dQw4w9WgXcQ/hqdefault.jpg",
    duration := "6:42",
    channel := query ++ " Health Association",
    views := "23K",
    likes := "450",
    description := "This video provides practical tips for managing " ++
      query ++ " through diet, exercise, and lifestyle changes. Learn about prevention, treatment options, and how to live a healthy life." }

/-- The tagged `serviceData` union `{type, query?, data}` (lines 236-253). -/
inductive ServiceData where
  | appointment (data : AppointmentData)
  | search (query : String) (data : SearchData)
  | video (query : String) (data : VideoData)
deriving DecidableEq, Repr

/-- The value `generateChatResponse` resolves with. -/
structure ChatResponse where
  message : String
  service : Option ServiceData
deriving DecidableEq, Repr

/-- Outcome of one `fetch` to the completions endpoint: `ok content` is a
2xx response whose body yields `choices[0].message.content` (the empty
string standing for a missing/falsy content field); `httpError` is a
non-2xx response; `netError` a rejected fetch.  The network is abstracted
as an oracle `model → messages → FetchOutcome`. -/
inductive FetchOutcome where
  | ok (content : String)
  | httpError
  | netError
deriving DecidableEq, Repr

/-- Success test: `true` exactly for a success response (`fetchResponse.ok`). -/
def isOkOutcome : FetchOutcome → Bool
  | FetchOutcome.ok _ => true
  | FetchOutcome.httpError => false
  | FetchOutcome.netError => false

/-- The content a success outcome carries. -/
def outcomeContent : FetchOutcome → Option String
  | FetchOutcome.ok c => some c
  | FetchOutcome.httpError => none
  | FetchOutcome.netError => none

/-- The ordered model-candidate list (line 182). -/
def models : List String :=
  ["llama3-8b-8192", "mixtral-8x7b-32768", "gemma-7b-it"]

/-- The system message (lines 168-172). -/
def systemMessage : ChatMsg :=
  { role := "system",
    content := "You are a helpful medical front desk assistant. Be professional, concise, and friendly. Your primary goal is to help patients with their medical queries and tasks." }

/-- Request message list (lines 175-179): system, then history, then user. -/
def buildMessages (message : String) (history : List ChatMsg) : List ChatMsg :=
  systemMessage :: history ++ [{ role := "user", content := message }]

/-- The model fallback loop (lines 185-221): walk the candidate list while
no response has been obtained, issuing one request per candidate; a
non-success outcome only advances the loop.  Returns the list of candidates
actually contacted and the winning content, if any. -/
def tryModelsGo (oracle : String → List ChatMsg → FetchOutcome)
    (msgs : List ChatMsg) : List String → List String × Option String
  | [] => ([], none)
  | m :: rest =>
    match oracle m msgs with
    | FetchOutcome.ok c => ([m], some c)
    | FetchOutcome.httpError =>
      (m :: (tryModelsGo oracle msgs rest).1, (tryModelsGo oracle msgs rest).2)
    | FetchOutcome.netError =>
      (m :: (tryModelsGo oracle msgs rest).1, (tryModelsGo oracle msgs rest).2)

/-- The dispatcher boundary: first success's content, or the thrown
`Error("All Groq models failed to respond")` (line 225). -/
def completeDispatch (oracle : String → List ChatMsg → FetchOutcome)
    (msgs : List ChatMsg) : Except String String :=
  match (tryModelsGo oracle msgs models).2 with
  | some c => Except.ok c
  | none => Except.error "All Groq models failed to respond"

/-- Service-data assembly (lines 233-253): appointment needs no query;
search and video need a non-empty (truthy) query. -/
def assembleService (serviceType query : String) : Option ServiceData :=
  if serviceType = "appointment" then
    some (ServiceData.appointment prepareAppointmentData)
  else if serviceType = "search" ∧ query ≠ "" then
    some (ServiceData.search query (prepareSearchData query))
  else if serviceType = "video" ∧ query ≠ "" then
    some (ServiceData.video query (prepareVideoData query))
  else none

/-- The apologetic reply of the outer `catch` (line 262). -/
def apologyMessage : String :=
  "I apologize, but I'm having trouble processing your request right now. Please try again later."

/-- Function `generateChatResponse` (lines 137-266).  Intent detection runs first;
the fallback loop queries the models; if none succeeded the function throws
and the outer `catch` resolves with the apologetic reply and `service:
null`; otherwise the body's content (with the `||` fallback for a falsy
content) and the assembled service data are returned.  The Lean function is
total: every input produces a `ChatResponse`, mirroring that `respond`
never rejects. -/
def generateChatResponse (oracle : String → List ChatMsg → FetchOutcome)
    (message : String) (messageHistory : List ChatMsg) : ChatResponse :=
  let st := classifyIntent message
  match (tryModelsGo oracle (buildMessages message messageHistory) models).2 with
  | none => { message := apologyMessage, service := none }
  | some content =>
    { message :=
        if content = "" then "I'm sorry, I couldn't process your request."
        else content,
      service := assembleService st.1 st.2 }

/-! ## Helper lemmas -/

/-- Folding the `onresult` loop equals prepending the accumulator to the
concatenated final texts. -/
theorem finalsFold (l : List SpeechResult) (acc : String) :
    l.foldl (fun a r => if r.isFinal then a ++ r.transcript else a) acc
      = acc ++ concatStrs ((l.filter (fun r => r.isFinal)).map
          (fun r => r.transcript)) := by
  induction l generalizing acc with
  | nil => simp [concatStrs]
  | cons r rest ih =>
    by_cases h : r.isFinal
    · simp [h, ih, concatStrs, String.append_assoc]
    · simp [h, ih, concatStrs]

/-- Rewriting `handleResult` in closed form. -/
theorem handleResult_eq (t : String) (e : SpeechEvent) :
    handleResult t e = t ++ " " ++ eventFinalsText e := by
  simp [handleResult, eventFinalsText, finalsFold]

/-! ## Claim theorems -/

/-- Claim C1 counterexample: a single interim-only result event does not
leave the transcript unchanged — it appends a space. -/
theorem interimEventChangesTranscript :
    processEvents ""
        [{ resultIndex := 0,
           results := [{ isFinal := false, transcript := "hello" }] }] ≠ ""
      ∧ processEvents ""
          [{ resultIndex := 0,
             results := [{ isFinal := false, transcript := "hello" }] }]
        = " " := by
  constructor
  · decide
  · decide

/-- Claim C1 (amended): for every initial transcript and event sequence,
the final transcript is the initial one extended, per event in order, by a
space followed by the concatenation (no separator) of that event's
`isFinal` best alternatives; interim-only events therefore append exactly
one space rather than leaving the transcript unchanged. -/
theorem transcriptPerEventAppend :
    ∀ (t : String) (evs : List SpeechEvent),
      processEvents t evs = transcriptSpecAmended t evs := by
  intro t evs
  induction evs generalizing t with
  | nil => simp [processEvents, transcriptSpecAmended, concatStrs]
  | cons e rest ih =>
    have step : processEvents t (e :: rest)
        = processEvents (handleResult t e) rest := rfl
    rw [step, ih, handleResult_eq]
    simp [transcriptSpecAmended, concatStrs, String.append_assoc]

/-- Claim C2 (code bug evidence): after `startListening` from the fresh
state the engine is logically listening, yet a platform `end` event
performs zero restart attempts — the keep-alive override reads its stale
captured `isListening` (false at install time), falls through to the
original handler and merely clears the listening flag; the code's own
comments ("Override onend to keep recognition alive") promise a restart.
The stop path of the claim does hold: after `stopListening`, an `end`
event performs no restart. -/
theorem keepAliveStaleClosureEval :
    (startListening initEngineState).isListening = true
      ∧ (onEndEvent (startListening initEngineState)).restartAttempts = 0
      ∧ (onEndEvent (startListening initEngineState)).isListening = false
      ∧ (onEndEvent (stopListening (startListening initEngineState))).restartAttempts
          = 0 := by
  refine ⟨rfl, rfl, rfl, rfl⟩

/-- Claim C9: `stopListening` is idempotent, leaves the engine not
listening, raises no error (the error and transcript fields are untouched),
and is the identity on an already-idle engine. -/
theorem stopIdempotent :
    (∀ s : EngineState, stopListening (stopListening s) = stopListening s)
      ∧ (∀ s : EngineState, (stopListening s).isListening = false
          ∧ (stopListening s).error = s.error
          ∧ (stopListening s).transcript = s.transcript)
      ∧ (∀ s : EngineState, s.isListening = false → s.started = false →
          stopListening s = s) := by
  refine ⟨fun s => rfl, fun s => ⟨rfl, rfl, rfl⟩, fun s h1 h2 => ?_⟩
  cases s
  simp_all [stopListening]

/-- Claim C9 witness: concrete instantiation at the initial (idle) state. -/
theorem stopIdempotentWitness :
    stopListening (stopListening initEngineState) = stopListening initEngineState
      ∧ stopListening initEngineState = initEngineState :=
  ⟨stopIdempotent.1 initEngineState, stopIdempotent.2.2 initEngineState rfl rfl⟩

/-- Claim C3 counterexample: "tell me about diabetes" does not classify as
`(search, "diabetes")` — none of the search keywords `search`,
`find information`, `look up` occur in it. -/
theorem tellMeAboutNotSearch :
    classifyIntent "tell me about diabetes" ≠ ("search", "diabetes") := by
  decide

/-- Claim C3 (amended): "tell me about diabetes" classifies as intent
`none` with an empty query — "tell me about" is only a query-extraction
trigger phrase, not an intent keyword; a message carrying a search keyword,
such as "look up diabetes", does yield `(search, "diabetes")`. -/
theorem tellMeAboutClassifiesNone :
    classifyIntent "tell me about diabetes" = ("none", "")
      ∧ classifyIntent "look up diabetes" = ("search", "diabetes") := by
  exact ⟨by decide, by decide⟩

/-- The appointment keyword set (lines 145-147). -/
def appointmentKeywords : List String := ["appointment", "schedule", "book"]

/-- The search keyword set (lines 149-151). -/
def searchKeywords : List String := ["search", "find information", "look up"]

/-- The video keyword set (lines 154-156). -/
def videoKeywords : List String := ["video", "youtube", "watch"]

/-- A message matches a keyword set when it contains one of its members. -/
def matchesAny (lowerMsg : String) (kws : List String) : Bool :=
  kws.any (fun k => includes lowerMsg k)

/-- Keyword test `matchesAny` over the appointment set is the first `if` condition. -/
theorem matchesAny_appointment (m : String) :
    matchesAny (toLowerCase m) appointmentKeywords
      = (includes (toLowerCase m) "appointment"
          || includes (toLowerCase m) "schedule"
          || includes (toLowerCase m) "book") := by
  simp [matchesAny, appointmentKeywords, List.any, Bool.or_assoc]

/-- Keyword test `matchesAny` over the search set is the second `if` condition. -/
theorem matchesAny_search (m : String) :
    matchesAny (toLowerCase m) searchKeywords
      = (includes (toLowerCase m) "search"
          || includes (toLowerCase m) "find information"
          || includes (toLowerCase m) "look up") := by
  simp [matchesAny, searchKeywords, List.any, Bool.or_assoc]

/-- Keyword test `matchesAny` over the video set is the third `if` condition. -/
theorem matchesAny_video (m : String) :
    matchesAny (toLowerCase m) videoKeywords
      = (includes (toLowerCase m) "video"
          || includes (toLowerCase m) "youtube"
          || includes (toLowerCase m) "watch") := by
  simp [matchesAny, videoKeywords, List.any, Bool.or_assoc]

/-- Claim C4: intent keyword sets are tested in the fixed priority order
appointment, search, video, first match winning; a message containing both
appointment and search keywords classifies as appointment. -/
theorem intentPriorityOrder :
    (∀ m : String, matchesAny (toLowerCase m) appointmentKeywords = true →
        (classifyIntent m).1 = "appointment")
      ∧ (∀ m : String, matchesAny (toLowerCase m) appointmentKeywords = false →
          matchesAny (toLowerCase m) searchKeywords = true →
          (classifyIntent m).1 = "search")
      ∧ (∀ m : String, matchesAny (toLowerCase m) appointmentKeywords = false →
          matchesAny (toLowerCase m) searchKeywords = false →
          matchesAny (toLowerCase m) videoKeywords = true →
          (classifyIntent m).1 = "video")
      ∧ (∀ m : String, matchesAny (toLowerCase m) appointmentKeywords = false →
          matchesAny (toLowerCase m) searchKeywords = false →
          matchesAny (toLowerCase m) videoKeywords = false →
          classifyIntent m = ("none", ""))
      ∧ classifyIntent "I want to schedule an appointment and search for info"
          = ("appointment", "") := by
  refine ⟨?_, ?_, ?_, ?_, by decide⟩
  · intro m h
    rw [matchesAny_appointment] at h
    simp [classifyIntent, h]
  · intro m h1 h2
    rw [matchesAny_appointment] at h1
    rw [matchesAny_search] at h2
    simp [classifyIntent, h1, h2]
  · intro m h1 h2 h3
    rw [matchesAny_appointment] at h1
    rw [matchesAny_search] at h2
    rw [matchesAny_video] at h3
    simp [classifyIntent, h1, h2, h3]
  · intro m h1 h2 h3
    rw [matchesAny_appointment] at h1
    rw [matchesAny_search] at h2
    rw [matchesAny_video] at h3
    simp [classifyIntent, h1, h2, h3]

/-- Claim C4 witness: one concrete message per branch of the priority
chain. -/
theorem intentPriorityOrderWitness :
    (classifyIntent "book").1 = "appointment"
      ∧ (classifyIntent "search").1 = "search"
      ∧ (classifyIntent "watch").1 = "video"
      ∧ classifyIntent "hello" = ("none", "") :=
  ⟨intentPriorityOrder.1 "book" (by decide),
   intentPriorityOrder.2.1 "search" (by decide) (by decide),
   intentPriorityOrder.2.2.1 "watch" (by decide) (by decide) (by decide),
   intentPriorityOrder.2.2.2.1 "hello" (by decide) (by decide) (by decide)⟩

/-- One step of the fallback loop on a success outcome. -/
theorem tryModelsGo_cons_ok
    {oracle : String → List ChatMsg → FetchOutcome} {msgs : List ChatMsg}
    {m : String} {rest : List String} {c : String}
    (h : oracle m msgs = FetchOutcome.ok c) :
    tryModelsGo oracle msgs (m :: rest) = ([m], some c) := by
  simp [tryModelsGo, h]

/-- One step of the fallback loop on a failed outcome. -/
theorem tryModelsGo_cons_fail
    {oracle : String → List ChatMsg → FetchOutcome} {msgs : List ChatMsg}
    {m : String} {rest : List String}
    (h : isOkOutcome (oracle m msgs) = false) :
    tryModelsGo oracle msgs (m :: rest)
      = (m :: (tryModelsGo oracle msgs rest).1,
         (tryModelsGo oracle msgs rest).2) := by
  cases ho : oracle m msgs
  · rw [ho] at h; simp [isOkOutcome] at h
  · simp [tryModelsGo, ho]
  · simp [tryModelsGo, ho]

/-- The contacted-candidate trace is an initial segment of the input. -/
theorem tryModelsGo_trace_take
    (oracle : String → List ChatMsg → FetchOutcome) (msgs : List ChatMsg) :
    ∀ ms : List String,
      (tryModelsGo oracle msgs ms).1
        = ms.take (tryModelsGo oracle msgs ms).1.length := by
  intro ms
  induction ms with
  | nil => simp [tryModelsGo]
  | cons m rest ih =>
    by_cases h : isOkOutcome (oracle m msgs) = true
    · cases ho : oracle m msgs
      · simp [tryModelsGo, ho]
      · rw [ho] at h; simp [isOkOutcome] at h
      · rw [ho] at h; simp [isOkOutcome] at h
    · rw [tryModelsGo_cons_fail (by simpa using h)]
      simpa using ih

/-- The loop yields no content exactly when every candidate fails. -/
theorem tryModelsGo_none_iff
    (oracle : String → List ChatMsg → FetchOutcome) (msgs : List ChatMsg) :
    ∀ ms : List String,
      ((tryModelsGo oracle msgs ms).2 = none
        ↔ ∀ m ∈ ms, isOkOutcome (oracle m msgs) = false) := by
  intro ms
  induction ms with
  | nil => simp [tryModelsGo]
  | cons m rest ih =>
    by_cases h : isOkOutcome (oracle m msgs) = true
    · cases ho : oracle m msgs
      · rw [tryModelsGo_cons_ok ho]
        simp
        intro hcontra
        rw [ho] at hcontra; simp [isOkOutcome] at hcontra
      · rw [ho] at h; simp [isOkOutcome] at h
      · rw [ho] at h; simp [isOkOutcome] at h
    · rw [tryModelsGo_cons_fail (by simpa using h)]
      simp [ih]
      intro _
      simpa using h

/-- When every candidate before `m` fails and `m` succeeds, the loop stops
at `m` with `m`'s content. -/
theorem tryModelsGo_first
    (oracle : String → List ChatMsg → FetchOutcome) (msgs : List ChatMsg) :
    ∀ (pre : List String) (m : String) (post : List String),
      (∀ x ∈ pre, isOkOutcome (oracle x msgs) = false) →
      ∀ c : String, oracle m msgs = FetchOutcome.ok c →
      tryModelsGo oracle msgs (pre ++ m :: post) = (pre ++ [m], some c) := by
  intro pre
  induction pre with
  | nil =>
    intro m post _ c hc
    simpa using tryModelsGo_cons_ok hc
  | cons p pre' ih =>
    intro m post hpre c hc
    have hp : isOkOutcome (oracle p msgs) = false := hpre p (by simp)
    have step : (p :: pre') ++ m :: post = p :: (pre' ++ m :: post) := rfl
    rw [step, tryModelsGo_cons_fail hp,
        ih m post (fun x hx => hpre x (by simp [hx])) c hc]
    simp

/-- Claim C5: the dispatcher contacts candidates strictly in priority
order (the trace of contacted models is an initial, duplicate-free segment
of `models`); the first succeeding candidate supplies the content and no
later candidate is contacted; if every candidate fails, the dispatcher
fails with the all-providers-exhausted error. -/
theorem dispatcherFallbackOrder :
    ∀ (oracle : String → List ChatMsg → FetchOutcome) (msgs : List ChatMsg),
      ((tryModelsGo oracle msgs models).1
          = models.take (tryModelsGo oracle msgs models).1.length
        ∧ (tryModelsGo oracle msgs models).1.Nodup)
      ∧ (∀ (pre : List String) (m : String) (post : List String),
          models = pre ++ m :: post →
          (∀ x ∈ pre, isOkOutcome (oracle x msgs) = false) →
          ∀ c : String, oracle m msgs = FetchOutcome.ok c →
          tryModelsGo oracle msgs models = (pre ++ [m], some c))
      ∧ ((∀ m ∈ models, isOkOutcome (oracle m msgs) = false) →
          completeDispatch oracle msgs
            = Except.error "All Groq models failed to respond") := by
  intro oracle msgs
  refine ⟨⟨tryModelsGo_trace_take oracle msgs models, ?_⟩, ?_, ?_⟩
  · rw [tryModelsGo_trace_take oracle msgs models]
    exact (show models.Nodup by decide).sublist
      (List.take_sublist _ models)
  · intro pre m post hsplit hpre c hc
    rw [hsplit]
    exact tryModelsGo_first oracle msgs pre m post hpre c hc
  · intro hall
    have h2 : (tryModelsGo oracle msgs models).2 = none :=
      (tryModelsGo_none_iff oracle msgs models).mpr hall
    simp [completeDispatch, h2]

/-- Oracle for the C5 witness: candidate 1 fails with a non-2xx status,
candidate 2 succeeds, candidate 3 would succeed but must never be asked. -/
def w5oracle : String → List ChatMsg → FetchOutcome := fun m _ =>
  if m = "llama3-8b-8192" then FetchOutcome.httpError
  else if m = "mixtral-8x7b-32768" then FetchOutcome.ok "hello"
  else FetchOutcome.ok "never"

/-- Claim C5 witness: with candidate 1 failing and candidate 2 succeeding,
the loop returns candidate 2's content and contacts exactly the first two
candidates. -/
theorem dispatcherFallbackOrderWitness :
    tryModelsGo w5oracle [] models
      = (["llama3-8b-8192", "mixtral-8x7b-32768"], some "hello") := by
  have h := (dispatcherFallbackOrder w5oracle []).2.1
    ["llama3-8b-8192"] "mixtral-8x7b-32768" ["gemma-7b-it"]
    (by decide) (by decide) "hello" (by decide)
  simpa using h

/-- Claim C6: whenever every candidate fails (dispatcher exhausted),
`generateChatResponse` resolves — it never propagates the failure — with
the fixed apologetic message and a null service field.  (Totality of the
Lean function witnesses that every input yields a well-formed response.) -/
theorem respondFailureFallback :
    ∀ (oracle : String → List ChatMsg → FetchOutcome) (message : String)
      (history : List ChatMsg),
      (∀ m ∈ models,
        isOkOutcome (oracle m (buildMessages message history)) = false) →
      generateChatResponse oracle message history
        = { message := apologyMessage, service := none } := by
  intro oracle message history h
  have h2 : (tryModelsGo oracle (buildMessages message history) models).2
      = none :=
    (tryModelsGo_none_iff oracle (buildMessages message history) models).mpr h
  simp [generateChatResponse, h2]

/-- Claim C6 witness: all fetches rejecting, at a concrete message. -/
theorem respondFailureFallbackWitness :
    generateChatResponse (fun _ _ => FetchOutcome.netError) "hello" []
      = { message := apologyMessage, service := none } :=
  respondFailureFallback (fun _ _ => FetchOutcome.netError) "hello" []
    (by decide)

/-- The first component of `classifyIntent` is one of the four service
type strings. -/
theorem classifyIntent_fst_cases (m : String) :
    (classifyIntent m).1 = "appointment" ∨ (classifyIntent m).1 = "search"
      ∨ (classifyIntent m).1 = "video" ∨ (classifyIntent m).1 = "none" := by
  simp only [classifyIntent]
  split
  · simp
  · split
    · simp
    · split
      · simp
      · simp

/-- Assembly step `assembleService` attaches a payload exactly under the claimed
condition, for the four service type strings the classifier produces. -/
theorem assembleService_iff (st q : String)
    (h : st = "appointment" ∨ st = "search" ∨ st = "video" ∨ st = "none") :
    (assembleService st q ≠ none
      ↔ (st ≠ "none" ∧ (st = "appointment" ∨ q ≠ ""))) := by
  rcases h with h | h | h | h <;> subst h
  · simp [assembleService]
  · by_cases hq : q = ""
    · simp [assembleService, hq]
    · simp [assembleService, hq]
  · by_cases hq : q = ""
    · simp [assembleService, hq]
    · simp [assembleService, hq]
  · simp [assembleService]

/-- Oracle for the C7 counterexample: every fetch fails. -/
def cxOracle : String → List ChatMsg → FetchOutcome :=
  fun _ _ => FetchOutcome.httpError

/-- Claim C7 counterexample: for the message "book an appointment" under a
dispatcher where every candidate fails, the classified intent is
appointment (≠ none, needing no query) yet the response's service field is
null — the claimed "exactly when" biconditional fails. -/
theorem serviceNullOnDispatchFailure :
    ¬ (((generateChatResponse cxOracle "book an appointment" []).service
          ≠ none)
        ↔ ((classifyIntent "book an appointment").1 ≠ "none"
            ∧ ((classifyIntent "book an appointment").1 = "appointment"
               ∨ (classifyIntent "book an appointment").2 ≠ ""))) := by
  decide

/-- Claim C7 (amended): when the dispatcher succeeds, a service payload is
attached exactly when the classified intent is not none and either needs no
query (appointment) or has a non-empty extracted query (search, video);
when the dispatcher fails, the service field is null regardless of the
intent. -/
theorem serviceAttachmentCondition :
    ∀ (oracle : String → List ChatMsg → FetchOutcome) (message : String)
      (history : List ChatMsg),
      ((tryModelsGo oracle (buildMessages message history) models).2 ≠ none →
        ((generateChatResponse oracle message history).service ≠ none
          ↔ ((classifyIntent message).1 ≠ "none"
              ∧ ((classifyIntent message).1 = "appointment"
                 ∨ (classifyIntent message).2 ≠ ""))))
      ∧ ((tryModelsGo oracle (buildMessages message history) models).2 = none →
          (generateChatResponse oracle message history).service = none) := by
  intro oracle message history
  constructor
  · intro hne
    obtain ⟨c, hc⟩ := Option.ne_none_iff_exists'.mp hne
    have hs : (generateChatResponse oracle message history).service
        = assembleService (classifyIntent message).1
            (classifyIntent message).2 := by
      simp [generateChatResponse, hc]
    rw [hs]
    exact assembleService_iff _ _ (classifyIntent_fst_cases message)
  · intro hnone
    simp [generateChatResponse, hnone]

/-- Oracle for the C7 witness: the first candidate succeeds. -/
def okOracle : String → List ChatMsg → FetchOutcome :=
  fun _ _ => FetchOutcome.ok "fine"

/-- Claim C7 witness: with a succeeding dispatcher, the appointment message
gets a service payload attached. -/
theorem serviceAttachmentConditionWitness :
    (generateChatResponse okOracle "book an appointment" []).service
      ≠ none :=
  ((serviceAttachmentCondition okOracle "book an appointment" []).1
    (by decide)).mpr (by decide)

/-- Claim C8: the search synthesizer is a pure function of the query —
determinism is immediate — returning the curated fixed diabetes payload
whenever the query contains "diabetes", and otherwise a generic payload
templated from the query, with the query as the title, the query inside
the summary, no featured info, and exactly two generic results. -/
theorem searchSynthesizerCases :
    ∀ q : String,
      (includes q "diabetes" = true → prepareSearchData q = diabetesSearchData)
        ∧ (includes q "diabetes" = false →
            (prepareSearchData q).title = q
              ∧ (prepareSearchData q).summary = "Information about " ++ q
              ∧ (prepareSearchData q).featuredInfo = none
              ∧ (prepareSearchData q).results.length = 2) := by
  intro q
  constructor
  · intro h
    simp [prepareSearchData, h]
  · intro h
    simp [prepareSearchData, h]

/-- Claim C8 witness: the curated branch at query "diabetes" and the
generic branch at query "asthma". -/
theorem searchSynthesizerCasesWitness :
    prepareSearchData "diabetes" = diabetesSearchData
      ∧ (prepareSearchData "asthma").title = "asthma"
      ∧ (prepareSearchData "asthma").summary = "Information about " ++ "asthma"
      ∧ (prepareSearchData "asthma").featuredInfo = none
      ∧ (prepareSearchData "asthma").results.length = 2 := by
  refine ⟨(searchSynthesizerCases "diabetes").1 (by decide), ?_⟩
  have h := (searchSynthesizerCases "asthma").2 (by decide)
  exact ⟨h.1, h.2.1, h.2.2.1, h.2.2.2⟩

/-- Applying `Char.ofNat` to a scalar value below the surrogate range keeps its
code point. -/
theorem charOfNat_toNat (n : Nat) (h : n < 55296) :
    (Char.ofNat n).toNat = n := by
  simp [Char.ofNat, Nat.isValidChar, h, Char.ofNatAux, Char.toNat,
    UInt32.toNat, BitVec.toNat_ofNatLt]

/-- Lowercasing one character never yields an uppercase letter. -/
theorem isUpper_jsToLower (c : Char) :
    isUpperChar (jsToLowerChar c) = false := by
  unfold jsToLowerChar
  by_cases h : 65 ≤ c.toNat ∧ c.toNat ≤ 90
  · rw [if_pos h]
    have hv : (Char.ofNat (c.toNat + 32)).toNat = c.toNat + 32 :=
      charOfNat_toNat _ (by omega)
    simp [isUpperChar, hv]
    omega
  · rw [if_neg h]
    simp [isUpperChar]
    omega

/-- Every character of every piece of `splitOnCore` comes from the input
or the pending accumulator. -/
theorem mem_splitOnCore (sep : List Char) :
    ∀ (l : List Char) (skip : Nat) (acc piece : List Char),
      piece ∈ splitOnCore sep l skip acc → ∀ c ∈ piece, c ∈ l ∨ c ∈ acc := by
  intro l
  induction l with
  | nil =>
    intro skip acc piece hp c hc
    simp [splitOnCore] at hp
    subst hp
    right
    simpa using hc
  | cons x rest ih =>
    intro skip acc piece hp c hc
    match skip with
    | skip' + 1 =>
      simp only [splitOnCore] at hp
      rcases ih skip' acc piece hp c hc with h | h
      · exact Or.inl (by simp [h])
      · exact Or.inr h
    | 0 =>
      by_cases hpre : listIsPrefixOf sep (x :: rest) = true
      · simp only [splitOnCore, hpre, if_true, List.mem_cons] at hp
        rcases hp with hp | hp
        · subst hp
          right
          simpa using hc
        · rcases ih (sep.length - 1) [] piece hp c hc with h | h
          · exact Or.inl (by simp [h])
          · simp at h
      · simp only [splitOnCore, hpre, if_false, Bool.false_eq_true] at hp
        rcases ih 0 (x :: acc) piece hp c hc with h | h
        · exact Or.inl (by simp [h])
        · rcases List.mem_cons.mp h with h | h
          · exact Or.inl (by simp [h])
          · exact Or.inr h

/-- Every character of every piece of `splitWsCore` comes from the input
or the pending accumulator. -/
theorem mem_splitWsCore :
    ∀ (l acc : List Char) (inWs : Bool) (piece : List Char),
      piece ∈ splitWsCore l acc inWs → ∀ c ∈ piece, c ∈ l ∨ c ∈ acc := by
  intro l
  induction l with
  | nil =>
    intro acc inWs piece hp c hc
    simp [splitWsCore] at hp
    subst hp
    right
    simpa using hc
  | cons x rest ih =>
    intro acc inWs piece hp c hc
    by_cases hx : isWsChar x = true
    · cases inWs with
      | true =>
        simp only [splitWsCore, hx, if_true] at hp
        rcases ih acc true piece hp c hc with h | h
        · exact Or.inl (by simp [h])
        · exact Or.inr h
      | false =>
        simp [splitWsCore, hx] at hp
        rcases hp with rfl | hp
        · right
          simpa using hc
        · rcases ih [] true piece hp c hc with h | h
          · exact Or.inl (by simp [h])
          · simp at h
    · simp [splitWsCore, hx] at hp
      rcases ih (x :: acc) false piece hp c hc with h | h
      · exact Or.inl (by simp [h])
      · rcases List.mem_cons.mp h with h | h
        · exact Or.inl (by simp [h])
        · exact Or.inr h

/-- Every character of a space-join is a space or comes from a token. -/
theorem mem_joinSpaceL :
    ∀ (ts : List (List Char)) (c : Char), c ∈ joinSpaceL ts →
      c = ' ' ∨ ∃ t ∈ ts, c ∈ t := by
  intro ts
  induction ts with
  | nil => simp [joinSpaceL]
  | cons t ts' ih =>
    intro c hc
    cases ts' with
    | nil =>
      simp only [joinSpaceL] at hc
      exact Or.inr ⟨t, by simp, hc⟩
    | cons u us =>
      simp only [joinSpaceL, List.mem_append, List.mem_cons] at hc
      rcases hc with hc | hc | hc
      · exact Or.inr ⟨t, by simp, hc⟩
      · exact Or.inl hc
      · rcases ih c hc with h | ⟨v, hv, hcv⟩
        · exact Or.inl h
        · exact Or.inr ⟨v, by simp [hv], hcv⟩

/-- Trimming only removes characters. -/
theorem mem_trimL (l : List Char) (c : Char) (hc : c ∈ trimL l) : c ∈ l := by
  unfold trimL at hc
  have hc1 : c ∈ (l.dropWhile isWsChar).reverse.dropWhile isWsChar :=
    List.mem_reverse.mp hc
  have hc2 : c ∈ (l.dropWhile isWsChar).reverse :=
    (List.dropWhile_sublist _).subset hc1
  have hc3 : c ∈ l.dropWhile isWsChar := List.mem_reverse.mp hc2
  exact (List.dropWhile_sublist _).subset hc3

/-- A query returned by the trigger-phrase loop draws all its characters
from the lowercased message. -/
theorem mem_findPhraseQuery (lowerMsg : List Char) :
    ∀ (ps : List String) (q : List Char),
      findPhraseQuery lowerMsg ps = some q → ∀ c ∈ q, c ∈ lowerMsg := by
  intro ps
  induction ps with
  | nil => simp [findPhraseQuery]
  | cons p rest ih =>
    intro q hq c hc
    by_cases h1 : containsSub p.toList lowerMsg = true
    · simp only [findPhraseQuery, h1, if_true] at hq
      by_cases h2 : 1 < (splitOnL p.toList lowerMsg).length
      · rw [if_pos h2] at hq
        have hqeq : q = trimL ((splitOnL p.toList lowerMsg).getD 1 []) :=
          (Option.some.injEq _ _ ▸ hq).symm
        subst hqeq
        have hpiece : (splitOnL p.toList lowerMsg).getD 1 []
            ∈ splitOnL p.toList lowerMsg := by
          rcases hget : (splitOnL p.toList lowerMsg).get? 1 with _ | piece
          · exfalso
            rw [List.get?_eq_none] at hget
            omega
          · have hmem := List.get?_mem hget
            have hget2 : (splitOnL p.data lowerMsg).get? 1 = some piece := hget
            have hval : (splitOnL p.toList lowerMsg).getD 1 [] = piece := by
              simp [List.getD, ← List.get?_eq_getElem?]
              rw [hget2]
              rfl
            rw [hval]
            exact hmem
        have hcl := mem_trimL _ _ hc
        rcases mem_splitOnCore p.toList lowerMsg 0 [] _ hpiece c hcl with h | h
        · exact h
        · simp at h
      · rw [if_neg h2] at hq
        exact ih q hq c hc
    · simp only [findPhraseQuery, h1, Bool.false_eq_true, if_false] at hq
      exact ih q hq c hc

/-- Every character the query extractor returns is non-uppercase: both the
trigger-phrase path and the stop-word fallback operate on the lowercased
message (the join only adds spaces). -/
theorem extractQueryL_lower (msg : List Char) :
    ∀ c ∈ extractQueryL msg, isUpperChar c = false := by
  intro c hc
  have hlower : ∀ d ∈ msg.map jsToLowerChar, isUpperChar d = false := by
    intro d hd
    obtain ⟨e, _, rfl⟩ := List.mem_map.mp hd
    exact isUpper_jsToLower e
  unfold extractQueryL at hc
  by_cases hq : (findPhraseQuery (msg.map jsToLowerChar) commonPhrases).getD
      msg = msg
  · rw [if_pos hq] at hc
    have hc1 := mem_trimL _ _ hc
    rcases mem_joinSpaceL _ _ hc1 with rfl | ⟨t, ht, hct⟩
    · decide
    · have ht2 := (List.mem_filter.mp ht).1
      rcases mem_splitWsCore (msg.map jsToLowerChar) [] false t ht2 c hct
        with h | h
      · exact hlower c h
      · simp at h
  · rw [if_neg hq] at hc
    rcases hfind : findPhraseQuery (msg.map jsToLowerChar) commonPhrases
      with _ | q0
    · rw [hfind] at hq
      simp at hq
    · rw [hfind] at hc hq
      simp only [Option.getD] at hc
      exact hlower c
        (mem_findPhraseQuery (msg.map jsToLowerChar) commonPhrases q0 hfind
          c hc)

/-- Claim C10: the extracted query never contains an uppercase letter, and
the capitalized example message extracts to the lowercased query. -/
theorem extractedQueryLowercase :
    (∀ m : String,
      (extractSearchQuery m).toList.all (fun c => !(isUpperChar c)) = true)
      ∧ extractSearchQuery "Tell me about Diabetes" = "diabetes" := by
  constructor
  · intro m
    rw [List.all_eq_true]
    intro c hcm
    have hcq : c ∈ extractQueryL m.toList := hcm
    simp [extractQueryL_lower m.toList c hcq]
  · decide
